import Mathlib

/-!
Verification of the NVM image table of `src/sw/fw/nvm_2pdo.h` (STUSBxx NVM
memory map).  The source file contains exactly five constant 8-byte arrays
`Sector0` .. `Sector4`; the access operations (`getSector`, `getFullImage`),
the error kind, and the (trivial) state model are modelled from the
specification, which describes the table's public contract.
-/

/-- Bytes of NVM sector 0, transcribed from `src/sw/fw/nvm_2pdo.h`. -/
def Sector0 : List Nat := [0x00, 0x00, 0xB0, 0xAB, 0x00, 0x45, 0x00, 0x00]

/-- Bytes of NVM sector 1, transcribed from `src/sw/fw/nvm_2pdo.h`. -/
def Sector1 : List Nat := [0x00, 0x40, 0x9C, 0x1C, 0xFF, 0x01, 0x3C, 0xDF]

/-- Bytes of NVM sector 2, transcribed from `src/sw/fw/nvm_2pdo.h`. -/
def Sector2 : List Nat := [0x02, 0x40, 0x0F, 0x00, 0x32, 0x00, 0xFC, 0xF1]

/-- Bytes of NVM sector 3, transcribed from `src/sw/fw/nvm_2pdo.h`. -/
def Sector3 : List Nat := [0x00, 0x19, 0x54, 0xAF, 0xFB, 0x35, 0x5F, 0x00]

/-- Bytes of NVM sector 4, transcribed from `src/sw/fw/nvm_2pdo.h`. -/
def Sector4 : List Nat := [0x00, 0x64, 0x90, 0x21, 0x43, 0x00, 0x50, 0xFB]

/-- Modelled from the spec: the single error kind of the table, `OutOfRange`
(sector index outside `[0,4]`); the spec names no other error kind. -/
inductive ErrorKind where
  | OutOfRange
deriving DecidableEq

instance (ε α : Type) [DecidableEq ε] [DecidableEq α] : DecidableEq (Except ε α) := by
  intro a b
  cases a with
  | error e =>
      cases b with
      | error f =>
          exact if h : e = f then isTrue (by rw [h])
            else isFalse (by intro hc; cases hc; exact h rfl)
      | ok y => exact isFalse (by intro hc; cases hc)
  | ok x =>
      cases b with
      | error f => exact isFalse (by intro hc; cases hc)
      | ok y =>
          exact if h : x = y then isTrue (by rw [h])
            else isFalse (by intro hc; cases hc; exact h rfl)

/-- Modelled from the spec: the process-wide state of the NVM image table,
holding the bytes of the five sectors.  The source only defines the five
constant arrays; the state wrapper lets us express immutability claims. -/
structure NVMState where
  s0 : List Nat
  s1 : List Nat
  s2 : List Nat
  s3 : List Nat
  s4 : List Nat
deriving DecidableEq

/-- Modelled from the spec: the initial (and, as proved below, only
reachable) state, loaded with the five sectors of `src/sw/fw/nvm_2pdo.h`. -/
def initState : NVMState :=
  { s0 := Sector0, s1 := Sector1, s2 := Sector2, s3 := Sector3, s4 := Sector4 }

/-- The ordered list of the five sectors held by a state. -/
def sectorsOf (st : NVMState) : List (List Nat) :=
  [st.s0, st.s1, st.s2, st.s3, st.s4]

/-- Modelled from the spec: `getSector(index)` on a given state returns the
bytes of the requested sector, or fails with `OutOfRange` when `index` is
outside `[0, 4]`.  The index is an integer so that out-of-range inputs such
as `-1` are expressible. -/
def getSectorSt (st : NVMState) (index : Int) : Except ErrorKind (List Nat) :=
  if 0 ≤ index ∧ index ≤ 4 then
    Except.ok ((sectorsOf st).getD index.toNat [])
  else
    Except.error ErrorKind.OutOfRange

/-- Modelled from the spec: `getFullImage()` on a given state returns all
five sectors concatenated in index order. -/
def getFullImageSt (st : NVMState) : List Nat :=
  st.s0 ++ st.s1 ++ st.s2 ++ st.s3 ++ st.s4

/-- Modelled from the spec: `getSector(index)` of the table. -/
def getSector (index : Int) : Except ErrorKind (List Nat) :=
  getSectorSt initState index

/-- Modelled from the spec: `getFullImage()` of the table. -/
def getFullImage : List Nat :=
  getFullImageSt initState

/-- Modelled from the spec: the operations of the table's public contract. -/
inductive Op where
  | getSector (index : Int)
  | getFullImage

/-- Modelled from the spec: running one operation on a state yields a result
and the successor state.  Both operations are reads; the spec defines no
mutating operation. -/
def runOp (st : NVMState) : Op → Except ErrorKind (List Nat) × NVMState
  | Op.getSector index => (getSectorSt st index, st)
  | Op.getFullImage => (Except.ok (getFullImageSt st), st)

/-- Modelled from the spec: running a sequence of operations on a state. -/
def runTrace (st : NVMState) : List Op → NVMState
  | [] => st
  | op :: ops => runTrace (runOp st op).2 ops

/-- Modelled from the spec: the states reachable from the initial state by
any sequence of operations of the table. -/
inductive Reachable : NVMState → Prop where
  | init : Reachable initState
  | step (st : NVMState) (op : Op) : Reachable st → Reachable (runOp st op).2

/-- Modelled from the spec: `Interleaving threads zs` holds when the trace
`zs` is an interleaving of the per-thread operation sequences `threads`,
preserving each thread's internal order. -/
inductive Interleaving : List (List Op) → List Op → Prop where
  | nil : Interleaving [] []
  | dropEmpty (before after : List (List Op)) (zs : List Op) :
      Interleaving (before ++ after) zs →
      Interleaving (before ++ [] :: after) zs
  | cons (op : Op) (before : List (List Op)) (rest : List Op)
      (after : List (List Op)) (zs : List Op) :
      Interleaving (before ++ rest :: after) zs →
      Interleaving (before ++ (op :: rest) :: after) (op :: zs)

/-- Every operation leaves the state unchanged. -/
theorem runOp_snd (st : NVMState) (op : Op) : (runOp st op).2 = st := by
  cases op <;> rfl

/-- Every trace of operations leaves the state unchanged. -/
theorem runTrace_eq : ∀ (ops : List Op) (st : NVMState), runTrace st ops = st := by
  intro ops
  induction ops with
  | nil => intro st; rfl
  | cons op ops ih =>
      intro st
      show runTrace (runOp st op).2 ops = st
      rw [runOp_snd, ih]

/-- Every reachable state is the initial state. -/
theorem reachable_eq_init (st : NVMState) (h : Reachable st) : st = initState := by
  induction h with
  | init => rfl
  | step st op _ ih => rw [runOp_snd, ih]

/-- Claim C1: for every index `i` in `[0,4]`, `getSector i` returns exactly
the 8-byte sequence of the spec's byte-layout table (which matches the
arrays of `src/sw/fw/nvm_2pdo.h`). -/
theorem c1_getSector_bytes :
    getSector 0 = Except.ok [0x00, 0x00, 0xB0, 0xAB, 0x00, 0x45, 0x00, 0x00] ∧
    getSector 1 = Except.ok [0x00, 0x40, 0x9C, 0x1C, 0xFF, 0x01, 0x3C, 0xDF] ∧
    getSector 2 = Except.ok [0x02, 0x40, 0x0F, 0x00, 0x32, 0x00, 0xFC, 0xF1] ∧
    getSector 3 = Except.ok [0x00, 0x19, 0x54, 0xAF, 0xFB, 0x35, 0x5F, 0x00] ∧
    getSector 4 = Except.ok [0x00, 0x64, 0x90, 0x21, 0x43, 0x00, 0x50, 0xFB] := by
  decide

/-- Claim C2: `getFullImage` is exactly the concatenation of the five sector
byte sequences returned by `getSector 0` .. `getSector 4`, in index order,
and it has exactly 40 bytes. -/
theorem c2_getFullImage_concat :
    getSector 0 = Except.ok Sector0 ∧
    getSector 1 = Except.ok Sector1 ∧
    getSector 2 = Except.ok Sector2 ∧
    getSector 3 = Except.ok Sector3 ∧
    getSector 4 = Except.ok Sector4 ∧
    getFullImage = Sector0 ++ Sector1 ++ Sector2 ++ Sector3 ++ Sector4 ∧
    getFullImage.length = 40 := by
  decide

/-- Claim C3: `getSector index` fails with `OutOfRange` exactly when `index`
is outside `[0,4]`; `OutOfRange` is the only error kind any operation of the
table can produce; and on a valid index `getSector` never fails. -/
theorem c3_getSector_out_of_range :
    (∀ index : Int,
      getSector index = Except.error ErrorKind.OutOfRange ↔ index < 0 ∨ 4 < index) ∧
    (∀ (st : NVMState) (op : Op) (e : ErrorKind),
      (runOp st op).1 = Except.error e → e = ErrorKind.OutOfRange) ∧
    (∀ index : Int, 0 ≤ index → index ≤ 4 → ∃ bs, getSector index = Except.ok bs) := by
  refine ⟨?_, ?_, ?_⟩
  · intro index
    by_cases h : 0 ≤ index ∧ index ≤ 4
    · simp only [getSector, getSectorSt, if_pos h]
      constructor
      · intro hc; cases hc
      · intro hc; omega
    · simp only [getSector, getSectorSt, if_neg h]
      constructor
      · intro _; omega
      · intro _; trivial
  · intro st op e _
    cases e
    rfl
  · intro index h1 h2
    refine ⟨(sectorsOf initState).getD index.toNat [], ?_⟩
    unfold getSector getSectorSt
    rw [if_pos (⟨h1, h2⟩ : 0 ≤ index ∧ index ≤ 4)]

/-- Witness for claim C3's theorem at the concrete indices 5, -1 and 2. -/
theorem c3_getSector_out_of_range_witness :
    getSector 5 = Except.error ErrorKind.OutOfRange ∧
    getSector (-1) = Except.error ErrorKind.OutOfRange ∧
    ErrorKind.OutOfRange = ErrorKind.OutOfRange ∧
    (∃ bs, getSector 2 = Except.ok bs) :=
  ⟨(c3_getSector_out_of_range.1 5).mpr (by decide),
   (c3_getSector_out_of_range.1 (-1)).mpr (by decide),
   c3_getSector_out_of_range.2.1 initState (Op.getSector 5) ErrorKind.OutOfRange (by decide),
   c3_getSector_out_of_range.2.2 2 (by decide) (by decide)⟩

/-- Claim C4: in every reachable state the image consists of exactly 5
sectors, every sector has exactly 8 bytes each below 256 (so `getSector`
returns exactly 8 bytes on every valid index), and the full image has
exactly 40 bytes. -/
theorem c4_size_invariant (st : NVMState) (h : Reachable st) :
    (sectorsOf st).length = 5 ∧
    (∀ i : Fin 5,
      getSectorSt st (i.val : Int) = Except.ok ((sectorsOf st).getD i.val []) ∧
      ((sectorsOf st).getD i.val []).length = 8) ∧
    (getFullImageSt st).length = 40 ∧
    (∀ b ∈ getFullImageSt st, b < 256) := by
  rw [reachable_eq_init st h]
  decide

/-- Witness for claim C4's theorem at the initial state. -/
theorem c4_size_invariant_witness :
    (sectorsOf initState).length = 5 ∧
    (∀ i : Fin 5,
      getSectorSt initState (i.val : Int) = Except.ok ((sectorsOf initState).getD i.val []) ∧
      ((sectorsOf initState).getD i.val []).length = 8) ∧
    (getFullImageSt initState).length = 40 ∧
    (∀ b ∈ getFullImageSt initState, b < 256) :=
  c4_size_invariant initState Reachable.init

/-- Claim C5: the operations are pure and deterministic: no operation
changes the state, and `getSector` and `getFullImage` return identical
results no matter which operations ran before either call. -/
theorem c5_pure_deterministic :
    (∀ (st : NVMState) (op : Op), (runOp st op).2 = st) ∧
    (∀ (ops1 ops2 : List Op) (index : Int),
      (runOp (runTrace initState ops1) (Op.getSector index)).1 =
        (runOp (runTrace initState ops2) (Op.getSector index)).1) ∧
    (∀ ops1 ops2 : List Op,
      (runOp (runTrace initState ops1) Op.getFullImage).1 =
        (runOp (runTrace initState ops2) Op.getFullImage).1) := by
  refine ⟨runOp_snd, ?_, ?_⟩
  · intro ops1 ops2 index
    rw [runTrace_eq ops1, runTrace_eq ops2]
  · intro ops1 ops2
    rw [runTrace_eq ops1, runTrace_eq ops2]

/-- Claim C6: `getFullImage` has no error conditions: after any trace of
operations it succeeds, always yielding the same 40-byte sequence. -/
theorem c6_getFullImage_total :
    (∀ st : NVMState, (runOp st Op.getFullImage).1 = Except.ok (getFullImageSt st)) ∧
    (∀ ops : List Op,
      (runOp (runTrace initState ops) Op.getFullImage).1 = Except.ok getFullImage) ∧
    getFullImage.length = 40 := by
  refine ⟨fun st => rfl, ?_, by decide⟩
  intro ops
  rw [runTrace_eq ops]
  rfl

/-- Claim C7: the table is immutable: the initial state is the only
reachable state, no operation changes the state, and no trace of operations
changes any byte of any sector. -/
theorem c7_immutable_single_state :
    (∀ st : NVMState, Reachable st ↔ st = initState) ∧
    (∀ (st : NVMState) (op : Op), (runOp st op).2 = st) ∧
    (∀ ops : List Op, sectorsOf (runTrace initState ops) = sectorsOf initState) := by
  refine ⟨?_, runOp_snd, ?_⟩
  · intro st
    constructor
    · exact reachable_eq_init st
    · intro h
      rw [h]
      exact Reachable.init
  · intro ops
    rw [runTrace_eq ops]

/-- Claim C8: byte-range equivalence between the whole-image and per-sector
views: bytes 8..16 of `getFullImage` equal the bytes of `getSector 1`. -/
theorem c8_range_equivalence :
    (getFullImage.drop 8).take 8 = Sector1 ∧ getSector 1 = Except.ok Sector1 := by
  decide

/-- Claim C9: any number of threads may read the table concurrently without
synchronization: along every interleaving of their operation sequences no
step mutates the state, and every read, at every point of the interleaving,
observes the same fixed bytes. -/
theorem c9_concurrent_reads (threads : List (List Op)) (zs : List Op)
    (h : Interleaving threads zs) :
    runTrace initState zs = initState ∧
    (∀ zs1 zs2 : List Op, zs = zs1 ++ zs2 →
      (∀ index : Int, getSectorSt (runTrace initState zs1) index = getSector index) ∧
      getFullImageSt (runTrace initState zs1) = getFullImage) := by
  refine ⟨runTrace_eq zs initState, ?_⟩
  intro zs1 zs2 _
  rw [runTrace_eq zs1]
  exact ⟨fun index => rfl, rfl⟩

/-- Witness for claim C9's theorem: a concrete two-thread interleaving. -/
theorem c9_concurrent_reads_witness :
    Interleaving [[Op.getSector 0], [Op.getFullImage]]
      [Op.getSector 0, Op.getFullImage] ∧
    runTrace initState [Op.getSector 0, Op.getFullImage] = initState ∧
    (∀ index : Int,
      getSectorSt (runTrace initState [Op.getSector 0]) index = getSector index) :=
  have h0 : Interleaving ([[], []] : List (List Op)) [] :=
    Interleaving.dropEmpty [] [[]] []
      (Interleaving.dropEmpty [] [] [] Interleaving.nil)
  have h1 : Interleaving [[], [Op.getFullImage]] [Op.getFullImage] :=
    Interleaving.cons Op.getFullImage [[]] [] [] [] h0
  have h2 : Interleaving [[Op.getSector 0], [Op.getFullImage]]
      [Op.getSector 0, Op.getFullImage] :=
    Interleaving.cons (Op.getSector 0) [] [] [[Op.getFullImage]] [Op.getFullImage] h1
  ⟨h2, (c9_concurrent_reads _ _ h2).1,
    ((c9_concurrent_reads _ _ h2).2 [Op.getSector 0] [Op.getFullImage] rfl).1⟩

/-- Claim C10: the five sectors are pairwise distinct, and no sector is the
all-zero 8-byte sequence. -/
theorem c10_sectors_distinct_nonzero :
    (∀ i j : Fin 5, i ≠ j → getSector (i.val : Int) ≠ getSector (j.val : Int)) ∧
    (∀ i : Fin 5, getSector (i.val : Int) ≠ Except.ok (List.replicate 8 0)) := by
  decide

/-- Witness for claim C10's theorem at the concrete indices 0 and 1. -/
theorem c10_sectors_distinct_nonzero_witness :
    getSector (((0 : Fin 5).val : Nat) : Int) ≠ getSector (((1 : Fin 5).val : Nat) : Int) ∧
    getSector (((0 : Fin 5).val : Nat) : Int) ≠ Except.ok (List.replicate 8 0) :=
  ⟨c10_sectors_distinct_nonzero.1 0 1 (by decide),
   c10_sectors_distinct_nonzero.2 0⟩
